import Mathlib

/-!
Shallow embedding of `src/main.py` (betslip odds proxy) and proofs about it.

Modelling conventions, applied throughout:
* Python `datetime` instants are modelled as `Int` seconds since the Unix
  epoch (1970-01-01 00:00:00 UTC, a Thursday).  Python's floor division `//`
  and `%` on these quantities coincide with `Int.ediv` / `Int.emod` because
  every divisor involved (86400, 7) is positive.
* Python floats are modelled as rationals (`Rat`); none of the values the
  code manipulates need `inf`/`nan`, and the numeric-literal parser below
  covers the plain decimal forms (optional sign, digits, optional fraction);
  exponents, underscores, `inf`/`nan` and surrounding whitespace are outside
  the modelled subset.
* JSON leaf values that the code feeds to `float(...)` / `int(...)` are
  modelled by `JVal` (null, string, int, float).
* Raising a Python exception is modelled with `Except PyErr`; an uncaught
  `ValueError` / `TypeError` / pydantic `ValidationError` is `.error e`.
* Python dicts built by comprehensions (`{k(x): x for x in l}`) followed by
  `get` are modelled by "last binding wins" lookups on the original list.
* Outcome / market / bookmaker / event dicts are modelled as records; a key
  that is absent and a key that is present with value `None` are both
  modelled as `none` (the code only accesses them through `.get`, for which
  the two are indistinguishable; the truthiness of an empty dict is not
  modelled, i.e. outcome objects are assumed non-empty).
-/

namespace Betslip

/-- Python exceptions that can escape the code under study. -/
inductive PyErr where
  | valueError
  | typeError
  | validationError
deriving DecidableEq, Repr

/-- Decidable equality for `Except`, so concrete runs can be settled by
`decide`. -/
instance {ε α : Type} [DecidableEq ε] [DecidableEq α] : DecidableEq (Except ε α) := fun a b =>
  match a, b with
  | .ok x, .ok y =>
    if h : x = y then isTrue (congrArg Except.ok h)
    else isFalse (fun hh => h (Except.ok.inj hh))
  | .error x, .error y =>
    if h : x = y then isTrue (congrArg Except.error h)
    else isFalse (fun hh => h (Except.error.inj hh))
  | .ok _, .error _ => isFalse (fun hh => Except.noConfusion hh)
  | .error _, .ok _ => isFalse (fun hh => Except.noConfusion hh)

/-- JSON leaf value as handed to `float(...)` / `int(...)` by the code. -/
inductive JVal where
  | vNone
  | vStr (s : String)
  | vInt (n : Int)
  | vFloat (q : Rat)
deriving DecidableEq, Repr

/-- Numeric value of a decimal digit run, most significant first. -/
def digitsToNat (ds : List Char) : Nat :=
  ds.foldl (fun a c => a * 10 + (c.toNat - 48)) 0

/-- Optional leading sign of a Python numeric literal. -/
def parseSign : List Char → Int × List Char
  | '-' :: r => (-1, r)
  | '+' :: r => (1, r)
  | r => (1, r)

/-- Unsigned part of a Python float literal: `digits`, `digits.digits`,
`digits.` or `.digits` (the decimal subset of what `float(str)` accepts). -/
def parseUnsignedFloat (cs : List Char) : Option Rat :=
  let (ds, rest) := cs.span Char.isDigit
  match rest with
  | [] => if ds.isEmpty then none else some (digitsToNat ds : Rat)
  | '.' :: rest2 =>
    let (fs, rest3) := rest2.span Char.isDigit
    if rest3.isEmpty && (!ds.isEmpty || !fs.isEmpty) then
      some (mkRat (digitsToNat ds * 10 ^ fs.length + digitsToNat fs) (10 ^ fs.length))
    else none
  | _ => none

/-- Python `float(s)` on a string (decimal subset; see module comment). -/
def pyFloatOfString (s : String) : Option Rat :=
  let (sg, r) := parseSign s.data
  (parseUnsignedFloat r).map (fun q => if sg < 0 then -q else q)

/-- Python `int(s)` on a string: optional sign then digits only. -/
def pyIntOfString (s : String) : Option Int :=
  let (sg, r) := parseSign s.data
  let (ds, rest) := r.span Char.isDigit
  if rest.isEmpty && !ds.isEmpty then some (sg * (digitsToNat ds : Int)) else none

/-- Truncation toward zero, Python `int(...)` applied to a float. -/
def ratTrunc (q : Rat) : Int := Int.tdiv q.num (q.den : Int)

/-- Python `float(x)` on a JSON leaf: `None` raises `TypeError`, a
non-numeric string raises `ValueError`. -/
def pyFloat : JVal → Except PyErr Rat
  | .vNone => .error .typeError
  | .vInt n => .ok (n : Rat)
  | .vFloat q => .ok q
  | .vStr s =>
    match pyFloatOfString s with
    | some q => .ok q
    | none => .error .valueError

/-- Python `int(x)` on a JSON leaf. -/
def pyInt : JVal → Except PyErr Int
  | .vNone => .error .typeError
  | .vInt n => .ok n
  | .vFloat q => .ok (ratTrunc q)
  | .vStr s =>
    match pyIntOfString s with
    | some n => .ok n
    | none => .error .valueError

/-- `american_int` from `src/main.py`: `int(float(x))`, and on any exception
a second attempt `int(x)` whose own exception propagates. -/
def american_int (x : JVal) : Except PyErr Int :=
  match pyFloat x with
  | .ok q => .ok (ratTrunc q)
  | .error _ => pyInt x

-- ---------- Cache (`_cache`, `cache_get`, `cache_set`) ----------

/-- Cache TTL in seconds (`CACHE_TTL_SECS` in `src/main.py`). -/
def CACHE_TTL_SECS : Rat := 45

/-- One cache slot: `{"data": ..., "exp": datetime}`.  Expiry instants are
modelled as rational seconds since the epoch. -/
structure CEntry (α : Type) where
  data : α
  exp : Rat
deriving DecidableEq, Repr

/-- The process-wide dict `_cache`, observed only through `get`/`set`:
modelled as a list where a `set` prepends and a lookup takes the newest
binding, which is observationally the Python dict. -/
def Cache (α : Type) : Type := List (String × CEntry α)

/-- Raw dict lookup on the cache store (what `_cache.get(key)` sees). -/
def cacheLookup {α : Type} (c : Cache α) (key : String) : Option (CEntry α) :=
  (List.find? (fun e => e.1 == key) c).map (fun e => e.2)

/-- `cache_set` from `src/main.py`: store the payload with expiry
`now + ttl`, overwriting any previous binding.  In the source `ttl`
defaults to `CACHE_TTL_SECS` and every call site uses that default; the
model passes it explicitly. -/
def cache_set {α : Type} (c : Cache α) (key : String) (data : α) (now : Rat)
    (ttl : Rat) : Cache α :=
  (key, ⟨data, now + ttl⟩) :: c

/-- `cache_get` from `src/main.py`: the payload if an entry exists and the
current time is strictly before its expiry, else `None`.  The entry itself
is not removed. -/
def cache_get {α : Type} (c : Cache α) (key : String) (now : Rat) : Option α :=
  match cacheLookup c key with
  | some e => if now < e.exp then some e.data else none
  | none => none

-- ---------- Datetimes ----------

/-- Result of `datetime.fromisoformat`: a civil timestamp plus an optional
UTC offset in minutes (`none` = naive).  Fractional seconds are outside the
modelled subset (none of the analysed behaviour depends on them). -/
structure PyDateTime where
  year : Nat
  month : Nat
  day : Nat
  hour : Nat
  minute : Nat
  second : Nat
  offset : Option Int
deriving DecidableEq, Repr

/-- Result of `datetime.date()`: the civil date carried by the datetime,
taken in its own offset (no conversion). -/
structure PyDate where
  year : Nat
  month : Nat
  day : Nat
deriving DecidableEq, Repr

/-- Python `dt.date()`. -/
def PyDateTime.toDate (d : PyDateTime) : PyDate := ⟨d.year, d.month, d.day⟩

/-- Gregorian leap year. -/
def isLeap (y : Nat) : Bool := (y % 4 == 0 && y % 100 != 0) || (y % 400 == 0)

/-- Length of a month in the proleptic Gregorian calendar. -/
def daysInMonth (y m : Nat) : Nat :=
  if m = 2 then (if isLeap y then 29 else 28)
  else if m = 4 ∨ m = 6 ∨ m = 9 ∨ m = 11 then 30
  else 31

/-- Days since 1970-01-01 of a civil date (days-from-civil algorithm). -/
def civilToDays (y m d : Int) : Int :=
  let y2 := if m ≤ 2 then y - 1 else y
  let era := y2 / 400
  let yoe := y2 - era * 400
  let mp := (m + 9) % 12
  let doy := (153 * mp + 2) / 5 + d - 1
  let doe := yoe * 365 + yoe / 4 - yoe / 100 + doy
  era * 146097 + doe - 719468

/-- UTC instant (seconds since epoch) denoted by a datetime; for a naive
datetime this is the instant read as if UTC (only used where the code has
already established an offset is present). -/
def toInstant (dt : PyDateTime) : Int :=
  civilToDays (dt.year : Int) (dt.month : Int) (dt.day : Int) * 86400
    + (dt.hour : Int) * 3600 + (dt.minute : Int) * 60 + (dt.second : Int)
    - (dt.offset.getD 0) * 60

/-- Two-digit field of an ISO timestamp. -/
def digs2 (a b : Char) : Option Nat :=
  if a.isDigit && b.isDigit then some (10 * (a.toNat - 48) + (b.toNat - 48)) else none

/-- Four-digit field of an ISO timestamp. -/
def digs4 (a b c d : Char) : Option Nat :=
  if a.isDigit && b.isDigit && c.isDigit && d.isDigit then
    some (1000 * (a.toNat - 48) + 100 * (b.toNat - 48) + 10 * (c.toNat - 48) + (d.toNat - 48))
  else none

/-- Optional trailing UTC offset `±HH:MM` of an ISO timestamp, in minutes. -/
def parseOffsetTail (cs : List Char) : Option (Option Int) :=
  match cs with
  | [] => some none
  | sgn :: h1 :: h2 :: ':' :: m1 :: m2 :: [] =>
    if sgn = '+' ∨ sgn = '-' then
      match digs2 h1 h2, digs2 m1 m2 with
      | some oh, some om =>
        if oh ≤ 23 ∧ om ≤ 59 then
          some (some ((if sgn = '-' then (-1 : Int) else 1) * ((oh : Int) * 60 + (om : Int))))
        else none
      | _, _ => none
    else none
  | _ => none

/-- Time-of-day (and optional offset) part of an ISO timestamp:
`HH:MM`, `HH:MM:SS`, each optionally followed by `±HH:MM`. -/
def parseTime (y mo da : Nat) (cs : List Char) : Option PyDateTime :=
  match cs with
  | h1 :: h2 :: ':' :: n1 :: n2 :: rest =>
    match digs2 h1 h2, digs2 n1 n2 with
    | some h, some n =>
      if h ≤ 23 ∧ n ≤ 59 then
        match rest with
        | ':' :: s1 :: s2 :: rest2 =>
          match digs2 s1 s2 with
          | some sec =>
            if sec ≤ 59 then
              (parseOffsetTail rest2).map (fun off => ⟨y, mo, da, h, n, sec, off⟩)
            else none
          | none => none
        | _ => (parseOffsetTail rest).map (fun off => ⟨y, mo, da, h, n, 0, off⟩)
      else none
    | _, _ => none
  | _ => none

/-- `datetime.fromisoformat` on the subset of ISO-8601 the code meets:
`YYYY-MM-DD`, optionally `THH:MM[:SS]`, optionally `±HH:MM`; field ranges
validated as Python does; `none` models the `ValueError`. -/
def parseISO (cs : List Char) : Option PyDateTime :=
  match cs with
  | y1 :: y2 :: y3 :: y4 :: '-' :: m1 :: m2 :: '-' :: d1 :: d2 :: rest =>
    match digs4 y1 y2 y3 y4, digs2 m1 m2, digs2 d1 d2 with
    | some y, some mo, some da =>
      if 1 ≤ y ∧ 1 ≤ mo ∧ mo ≤ 12 ∧ 1 ≤ da ∧ da ≤ daysInMonth y mo then
        match rest with
        | [] => some ⟨y, mo, da, 0, 0, 0, none⟩
        | 'T' :: tr => parseTime y mo da tr
        | _ => none
      else none
    | _, _, _ => none
  | _ => none

/-- `datetime.fromisoformat` on a string. -/
def fromisoformat (s : String) : Option PyDateTime := parseISO s.data

/-- Python `commence_iso.replace("Z", "+00:00")` (replaces every `Z`). -/
def replaceZChars : List Char → List Char
  | [] => []
  | c :: r =>
    if c = 'Z' then '+' :: '0' :: '0' :: ':' :: '0' :: '0' :: replaceZChars r
    else c :: replaceZChars r

/-- String form of the `Z`-to-`+00:00` substitution. -/
def replaceZ (s : String) : String := String.mk (replaceZChars s.data)

-- ---------- Window helpers ----------

/-- `football_week_window` from `src/main.py`.  `now` is an aware UTC
datetime, modelled as an integer second count; `.weekday()` (Mon = 0) of
such an instant is `(now // 86400 + 3) % 7`, `.replace(hour=0, ...)` floors
to the day boundary, and the final `astimezone(timezone.utc)` is the
identity on aware-UTC values. -/
def football_week_window (now : Int) : Int × Int :=
  let wkday := (now / 86400 + 3) % 7
  let monday := ((now - wkday * 86400) / 86400) * 86400
  (monday + 3 * 86400, monday + 8 * 86400)

/-- `within_window` from `src/main.py`.  The `try` covers only
`fromisoformat`, whose `ValueError` becomes `False`; the chained comparison
`start <= dt <= end` is outside it and raises `TypeError` when `dt` is
naive (both call sites pass aware-UTC bounds, modelled as instants). -/
def within_window (commence_iso : String) (start stop : Int) : Except PyErr Bool :=
  match fromisoformat (replaceZ commence_iso) with
  | none => .ok false
  | some dt =>
    match dt.offset with
    | none => .error .typeError
    | some _ => .ok (decide (start ≤ toInstant dt) && decide (toInstant dt ≤ stop))

/-- The per-event date test inlined in the `/nfl/today` handler
(`src/main.py` lines 177-180): `Z`-fix, parse (a `ValueError` skips the
event, i.e. no match), then compare `dt.date()` with today's UTC date. -/
def today_filter (commence : String) (today : PyDate) : Bool :=
  match fromisoformat (replaceZ commence) with
  | none => false
  | some dt => dt.toDate == today

-- ---------- Upstream data model ----------

/-- One entry of a market's `outcomes` list.  `name` is `o.get("name")`
(`none` for absent or null), `price` and `point` are the raw JSON leaves
fed to `american_int` / `float`. -/
structure Outcome where
  name : Option String
  price : JVal
  point : JVal
deriving DecidableEq, Repr

/-- One entry of a bookmaker's `markets` list. -/
structure Market where
  key : Option String
  outcomes : List Outcome
deriving DecidableEq, Repr

/-- One entry of an event's `bookmakers` list. -/
structure Bookmaker where
  title : Option String
  markets : List Market
deriving DecidableEq, Repr

/-- One raw upstream event. -/
structure Event where
  home_team : Option String
  away_team : Option String
  commence_time : Option String
  bookmakers : List Bookmaker
deriving DecidableEq, Repr

-- ---------- Output model (pydantic classes) ----------

/-- `Moneyline` pydantic model. -/
structure Moneyline where
  home : Int
  away : Int
deriving DecidableEq, Repr

/-- `Spread` pydantic model. -/
structure Spread where
  favorite : String
  line : Rat
  price : Int
deriving DecidableEq, Repr

/-- `Total` pydantic model. -/
structure Total where
  line : Rat
  over_price : Int
  under_price : Int
deriving DecidableEq, Repr

/-- `Game` pydantic model. -/
structure Game where
  week : Int
  kickoff_iso : String
  home : String
  away : String
  moneyline : Moneyline
  spread : Spread
  total : Total
deriving DecidableEq, Repr

-- ---------- Bookmaker selector ----------

/-- `BOOK_PRIORITY` from `src/main.py`. -/
def BOOK_PRIORITY : List String :=
  ["DraftKings", "FanDuel", "BetMGM", "Caesars", "PointsBet (US)", "bet365"]

/-- Lookup in a dict built by a comprehension over a list: successive
insertions mean the LAST element satisfying the predicate is the one the
dict retains for that key. -/
def lastMatch {α : Type} (p : α → Bool) : List α → Option α
  | [] => none
  | x :: t =>
    match lastMatch p t with
    | some r => some r
    | none => if p x then some x else none

/-- Lookup in the comprehension dict `{b.get("title"): b for b in bs}`:
the last bookmaker carrying the given title, if any. -/
def byTitle (bs : List Bookmaker) (k : Option String) : Option Bookmaker :=
  lastMatch (fun b => b.title == k) bs

/-- `choose_book` from `src/main.py`. -/
def choose_book (bs : List Bookmaker) : Option Bookmaker :=
  match bs with
  | [] => none
  | b0 :: _ =>
    match BOOK_PRIORITY.findSome? (fun name => byTitle bs (some name)) with
    | some b => some b
    | none => some b0

-- ---------- Event normalizer (`map_event_to_game`) ----------

/-- Lookup in the comprehension dict `{m.get("key"): m for m in markets}`:
last market with the given key. -/
def marketByKey (ms : List Market) (k : String) : Option Market :=
  lastMatch (fun m => m.key == some k) ms

/-- Lookup in the comprehension dict `{o.get("name"): o for o in outcomes}`:
last outcome with the given (possibly null) name. -/
def outByName (outs : List Outcome) (k : Option String) : Option Outcome :=
  lastMatch (fun o => o.name == k) outs

/-- `next((o for o in outs if o.get("name") in (team, label)), None)`. -/
def findSide (outs : List Outcome) (team : Option String) (label : String) :
    Option Outcome :=
  outs.find? (fun o => o.name == team || o.name == some label)

/-- Python `str.startswith`: character-list prefix test. -/
def startsWithChars : List Char → List Char → Bool
  | _, [] => true
  | [], _ :: _ => false
  | c :: cs, p :: ps => c == p && startsWithChars cs ps

/-- `str(o.get("name", "")).lower().startswith(word)` — the absent-name
default `""` and a null name (`str(None) = "None"`) both fail the test, so
the conflation of the two is harmless here.  `.lower()` is modelled
per-character (the names involved are ASCII). -/
def nameHasWord (o : Outcome) (word : String) : Bool :=
  startsWithChars ((o.name.getD "").data.map Char.toLower) word.data

/-- Moneyline section of `map_event_to_game` (lines 106-113): `none` models
the early `return None`, `.error` a raised exception. -/
def moneylineStage (ev : Event) (book : Bookmaker) : Except PyErr (Option Moneyline) :=
  match marketByKey book.markets "h2h" with
  | none => .ok none
  | some ml =>
    if ml.outcomes.isEmpty then .ok none
    else
      match (outByName ml.outcomes ev.home_team <|> outByName ml.outcomes (some "Home")),
            (outByName ml.outcomes ev.away_team <|> outByName ml.outcomes (some "Away")) with
      | some mh, some ma =>
        match american_int mh.price with
        | .error e => .error e
        | .ok hp =>
          match american_int ma.price with
          | .error e => .error e
          | .ok ap => .ok (some ⟨hp, ap⟩)
      | _, _ => .ok none

/-- Spread section of `map_event_to_game` (lines 115-127).  The favored
side's price is coerced before the `Spread(...)` construction, whose
pydantic validation raises when `favorite` is null. -/
def spreadStage (ev : Event) (book : Bookmaker) : Except PyErr (Option Spread) :=
  match marketByKey book.markets "spreads" with
  | none => .ok none
  | some sp =>
    if sp.outcomes.isEmpty then .ok none
    else
      match findSide sp.outcomes ev.home_team "Home",
            findSide sp.outcomes ev.away_team "Away" with
      | some sh, some sa =>
        match pyFloat sh.point with
        | .error e => .error e
        | .ok hp =>
          match pyFloat sa.point with
          | .error e => .error e
          | .ok ap =>
            if hp < ap then
              match american_int sh.price with
              | .error e => .error e
              | .ok pr =>
                match ev.home_team with
                | some f => .ok (some ⟨f, |hp|, pr⟩)
                | none => .error .validationError
            else
              match american_int sa.price with
              | .error e => .error e
              | .ok pr =>
                match ev.away_team with
                | some f => .ok (some ⟨f, |ap|, pr⟩)
                | none => .error .validationError
      | _, _ => .ok none

/-- Totals section of `map_event_to_game` (lines 129-136). -/
def totalStage (book : Bookmaker) : Except PyErr (Option Total) :=
  match marketByKey book.markets "totals" with
  | none => .ok none
  | some tot =>
    if tot.outcomes.isEmpty then .ok none
    else
      match tot.outcomes.find? (fun o => nameHasWord o "over"),
            tot.outcomes.find? (fun o => nameHasWord o "under") with
      | some ov, some un =>
        match pyFloat ov.point with
        | .error e => .error e
        | .ok line =>
          match american_int ov.price with
          | .error e => .error e
          | .ok op =>
            match american_int un.price with
            | .error e => .error e
            | .ok up => .ok (some ⟨line, op, up⟩)
      | _, _ => .ok none

/-- `map_event_to_game` from `src/main.py`: the three market sections in
source order, then the `Game(...)` construction, whose pydantic validation
raises when the home/away team or the kickoff string is null. -/
def map_event_to_game (ev : Event) (book : Bookmaker) : Except PyErr (Option Game) :=
  match moneylineStage ev book with
  | .error e => .error e
  | .ok none => .ok none
  | .ok (some ml) =>
    match spreadStage ev book with
    | .error e => .error e
    | .ok none => .ok none
    | .ok (some sp) =>
      match totalStage book with
      | .error e => .error e
      | .ok none => .ok none
      | .ok (some tot) =>
        match ev.home_team, ev.away_team, ev.commence_time with
        | some h, some a, some k =>
          .ok (some ⟨1, k, h, a, ml, sp, tot⟩)
        | _, _, _ => .error .validationError

-- ---------- Request-handler loops ----------

/-- The per-event loop body shared by the handlers (`src/main.py` lines
159-165, 176-184, 186-190): filter, `choose_book`, `map_event_to_game`,
append on success; an uncaught exception anywhere aborts the whole loop. -/
def runEvents (evs : List Event) (f : Event → Except PyErr Bool) :
    Except PyErr (List Game) :=
  match evs with
  | [] => .ok []
  | ev :: rest =>
    match f ev with
    | .error e => .error e
    | .ok keep =>
      if keep then
        match choose_book ev.bookmakers with
        | none => runEvents rest f
        | some book =>
          match map_event_to_game ev book with
          | .error e => .error e
          | .ok none => runEvents rest f
          | .ok (some g) =>
            match runEvents rest f with
            | .error e => .error e
            | .ok gs => .ok (g :: gs)
      else runEvents rest f

/-- Cache-miss body of the `/nfl/weekend` handler: the event loop with the
`within_window` filter over the computed weekend window. -/
def nfl_weekend_games (raw : List Event) (start stop : Int) :
    Except PyErr (List Game) :=
  runEvents raw (fun ev => within_window (ev.commence_time.getD "") start stop)

/-- `sorted(raw, key=lambda e: e.get("commence_time", ""))`. -/
def sortByCommence (raw : List Event) : List Event :=
  raw.mergeSort (fun a b => a.commence_time.getD "" ≤ b.commence_time.getD "")

/-- Cache-miss body of the `/nfl/today` handler (lines 173-190): the date
filter, then — when it produced nothing — the 2-event fallback over the
events sorted by commence string. -/
def nfl_today_games (raw : List Event) (today : PyDate) : Except PyErr (List Game) :=
  match runEvents raw (fun ev => .ok (today_filter (ev.commence_time.getD "") today)) with
  | .error e => .error e
  | .ok games =>
    if games.isEmpty then
      runEvents ((sortByCommence raw).take 2) (fun _ => .ok true)
    else .ok games

-- ---------- Theorems ----------

/-- Python `.weekday()` (Mon = 0) of a UTC instant. -/
def weekdayOfInstant (t : Int) : Int := (t / 86400 + 3) % 7

/-- Midnight of the Monday on or before the given instant. -/
def mondayMidnightOnOrBefore (t : Int) : Int :=
  (t / 86400) * 86400 - weekdayOfInstant t * 86400

/-- C4: `football_week_window` always returns a start at 00:00 UTC on the
Thursday of the week containing `now` — the Monday on or before `now`,
normalized to midnight, plus three days — and an end exactly five days
after the start. -/
theorem c4_week_window_shape (now : Int) :
    (football_week_window now).2 = (football_week_window now).1 + 5 * 86400 ∧
    (football_week_window now).1 % 86400 = 0 ∧
    weekdayOfInstant (football_week_window now).1 = 3 ∧
    (football_week_window now).1 = mondayMidnightOnOrBefore now + 3 * 86400 ∧
    mondayMidnightOnOrBefore now ≤ now := by
  simp only [football_week_window, weekdayOfInstant, mondayMidnightOnOrBefore]
  refine ⟨by omega, by omega, by omega, by omega, by omega⟩

/-- C7: after `cache_set key d t` (default TTL, 45 s), `cache_get` at time
`t'` returns the payload exactly when `t'` is strictly before the stored
expiry `t + 45`; the entry itself stays physically stored either way. -/
theorem c7_cache_ttl {α : Type} (c : Cache α) (key : String) (d : α) (t t' : Rat) :
    (cache_get (cache_set c key d t CACHE_TTL_SECS) key t' = some d ↔ t' < t + 45) ∧
    cacheLookup (cache_set c key d t CACHE_TTL_SECS) key = some ⟨d, t + 45⟩ := by
  have hl : cacheLookup (cache_set c key d t CACHE_TTL_SECS) key = some ⟨d, t + 45⟩ := by
    simp [cacheLookup, cache_set, CACHE_TTL_SECS, List.find?]
  refine ⟨?_, hl⟩
  unfold cache_get
  rw [hl]
  by_cases hc : t' < t + 45
  · simp [hc]
  · simp [hc]

/-- C3 counterexample: with the weekend window computed from the instant
2026-10-14 12:00 UTC, a kickoff exactly at the window end (Tuesday
2026-10-20 00:00 UTC) is accepted by `within_window`, so the claimed
half-open `start ≤ t < end` test is wrong about the code. -/
theorem c3_end_instant_included :
    within_window "2026-10-20T00:00:00+00:00"
        (football_week_window 1791979200).1 (football_week_window 1791979200).2
      = .ok true ∧
    fromisoformat (replaceZ "2026-10-20T00:00:00+00:00")
      = some ⟨2026, 10, 20, 0, 0, 0, some 0⟩ ∧
    toInstant ⟨2026, 10, 20, 0, 0, 0, some 0⟩ = (football_week_window 1791979200).2 := by
  decide

/-- C3 (amended): for a commence string that parses to an aware instant
`t`, `within_window` is the CLOSED interval test `start ≤ t ∧ t ≤ end`; in
particular a kickoff exactly at the end instant is included. -/
theorem c3_window_closed (c : String) (s e : Int) (dt : PyDateTime) (off : Int)
    (hp : fromisoformat (replaceZ c) = some dt) (ho : dt.offset = some off) :
    (within_window c s e = .ok true ↔ s ≤ toInstant dt ∧ toInstant dt ≤ e) := by
  simp [within_window, hp, ho, Bool.and_eq_true, decide_eq_true_iff]

/-- C3 witness: the amended closed-interval reading at a concrete in-window
kickoff. -/
theorem c3_window_closed_witness :
    within_window "2026-10-18T17:00:00Z" 1792022400 1792454400 = .ok true ↔
      (1792022400 ≤ toInstant ⟨2026, 10, 18, 17, 0, 0, some 0⟩ ∧
        toInstant ⟨2026, 10, 18, 17, 0, 0, some 0⟩ ≤ 1792454400) :=
  c3_window_closed _ _ _ _ 0 (by decide) rfl

/-- C10 counterexample: a well-formed ISO timestamp with no offset parses
to a naive datetime, and the aware-vs-naive chained comparison raises
`TypeError` — `within_window` is not total on strings. -/
theorem c10_naive_commence_raises :
    within_window "2026-10-18T17:00:00" 1792022400 1792454400 = .error .typeError ∧
    fromisoformat (replaceZ "2026-10-18T17:00:00")
      = some ⟨2026, 10, 18, 17, 0, 0, none⟩ := by
  decide

/-- C10 (amended): `within_window` returns `False` without raising on a
malformed commence string and returns a boolean on strings that parse with
an offset, but raises `TypeError` on strings that parse to a naive
datetime. -/
theorem c10_within_window_totality (c : String) (s e : Int) :
    (fromisoformat (replaceZ c) = none → within_window c s e = .ok false) ∧
    (∀ dt off, fromisoformat (replaceZ c) = some dt → dt.offset = some off →
      ∃ b, within_window c s e = .ok b) ∧
    (∀ dt, fromisoformat (replaceZ c) = some dt → dt.offset = none →
      within_window c s e = .error .typeError) := by
  refine ⟨fun h => ?_, fun dt off h ho => ?_, fun dt h ho => ?_⟩
  · simp [within_window, h]
  · simp [within_window, h, ho]
  · simp [within_window, h, ho]

/-- C10 witness: the amended totality statement in action on a malformed
timestamp. -/
theorem c10_within_window_totality_witness :
    within_window "not-a-date" 0 86400 = .ok false :=
  (c10_within_window_totality "not-a-date" 0 86400).1 (by decide)

/-- C9 counterexample: a commence timestamp with a `+05:00` offset whose
calendar day expressed in UTC equals the reference date (its instant lies
in that UTC day) is nevertheless rejected by the today filter, because the
code compares `dt.date()` without converting to UTC. -/
theorem c9_offset_date_not_utc :
    today_filter "2026-10-13T04:30:00+05:00" ⟨2026, 10, 12⟩ = false ∧
    fromisoformat (replaceZ "2026-10-13T04:30:00+05:00")
      = some ⟨2026, 10, 13, 4, 30, 0, some 300⟩ ∧
    toInstant ⟨2026, 10, 13, 4, 30, 0, some 300⟩ / 86400 = civilToDays 2026 10 12 := by
  decide

/-- C9 (amended): the today filter matches exactly when the commence string
parses (after the `Z` to `+00:00` substitution) and the calendar date it
carries in its OWN offset — with no UTC conversion — equals the reference
date; malformed strings never match and never raise. -/
theorem c9_today_filter_local_date (c : String) (today : PyDate) :
    today_filter c today = true ↔
      ∃ dt, fromisoformat (replaceZ c) = some dt ∧ dt.toDate = today := by
  unfold today_filter
  cases h : fromisoformat (replaceZ c) <;> simp [h]

/-- A `lastMatch` miss means no element satisfies the predicate. -/
theorem lastMatch_eq_none {α : Type} (p : α → Bool) (l : List α) :
    lastMatch p l = none ↔ ∀ x ∈ l, p x = false := by
  induction l with
  | nil => simp [lastMatch]
  | cons x t ih =>
    rw [lastMatch]
    cases ht : lastMatch p t with
    | some r =>
      simp only [List.forall_mem_cons]
      constructor
      · intro hc; exact absurd hc (by simp)
      · rintro ⟨_, hall⟩
        have h0 : lastMatch p t = none := ih.mpr hall
        rw [ht] at h0; exact absurd h0 (by simp)
    | none =>
      cases hp : p x with
      | true =>
        simp only [if_pos hp, List.forall_mem_cons]
        constructor
        · intro hc; exact absurd hc (by simp)
        · rintro ⟨hx, _⟩; rw [hp] at hx; exact absurd hx (by simp)
      | false =>
        rw [if_neg (by simp [hp])]
        simp only [List.forall_mem_cons]
        exact ⟨fun _ => ⟨hp, ih.mp ht⟩, fun _ => trivial⟩

/-- A `lastMatch` hit is a matching element after which nothing matches:
exactly the binding a comprehension-built dict retains. -/
theorem lastMatch_eq_some {α : Type} (p : α → Bool) (l : List α) (b : α)
    (h : lastMatch p l = some b) :
    p b = true ∧ ∃ pre suf, l = pre ++ b :: suf ∧ ∀ x ∈ suf, p x = false := by
  induction l with
  | nil => exact absurd h (by simp [lastMatch])
  | cons x t ih =>
    rw [lastMatch] at h
    cases ht : lastMatch p t with
    | some r =>
      rw [ht] at h
      obtain rfl : r = b := Option.some.inj h
      obtain ⟨hpb, pre, suf, rfl, hsuf⟩ := ih ht
      exact ⟨hpb, x :: pre, suf, rfl, hsuf⟩
    | none =>
      rw [ht] at h
      by_cases hp : p x = true
      · rw [if_pos hp] at h
        obtain rfl : x = b := Option.some.inj h
        exact ⟨hp, [], t, rfl, (lastMatch_eq_none p t).mp ht⟩
      · rw [if_neg hp] at h
        exact absurd h (by simp)

/-- If some element matches, `lastMatch` finds one. -/
theorem lastMatch_isSome_of_exists {α : Type} (p : α → Bool) (l : List α)
    (h : ∃ x ∈ l, p x = true) : ∃ b, lastMatch p l = some b := by
  induction l with
  | nil => simp at h
  | cons x t ih =>
    rw [lastMatch]
    cases ht : lastMatch p t with
    | some r => exact ⟨r, rfl⟩
    | none =>
      have htnone := (lastMatch_eq_none p t).mp ht
      obtain ⟨y, hy, hpy⟩ := h
      rcases List.mem_cons.mp hy with rfl | hyt
      · exact ⟨y, by rw [if_pos hpy]⟩
      · exact absurd hpy (by simp [htnone y hyt])

/-- `byTitle` misses exactly when no bookmaker carries the title. -/
theorem byTitle_eq_none_iff (bs : List Bookmaker) (n : String) :
    byTitle bs (some n) = none ↔ ¬∃ b ∈ bs, b.title = some n := by
  rw [byTitle, lastMatch_eq_none]
  constructor
  · rintro hall ⟨b, hb, ht⟩
    have := hall b hb
    simp [ht] at this
  · intro hne b hb
    by_cases h : b.title = some n
    · exact absurd ⟨b, hb, h⟩ hne
    · simp [h]

/-- Scanning a list whose head segment yields nothing lands on the first
hit. -/
theorem findSome?_of_head_misses {β : Type} (g : String → Option β)
    (p1 : List String) (name : String) (p2 : List String) (b : β)
    (h1 : ∀ n ∈ p1, g n = none) (hname : g name = some b) :
    List.findSome? g (p1 ++ name :: p2) = some b := by
  induction p1 with
  | nil => simp [List.findSome?_cons, hname]
  | cons n t ih =>
    have hn : g n = none := h1 n (by simp)
    simp only [List.cons_append, List.findSome?_cons, hn]
    exact ih (fun m hm => h1 m (by simp [hm]))

/-- Scanning a list none of whose names hit yields nothing. -/
theorem findSome?_eq_none_of_all_miss {β : Type} (g : String → Option β)
    (l : List String) (h : ∀ n ∈ l, g n = none) :
    List.findSome? g l = none := by
  induction l with
  | nil => rfl
  | cons n t ih =>
    simp only [List.findSome?_cons, h n (by simp)]
    exact ih (fun m hm => h m (by simp [hm]))

/-- C5: `choose_book` is `none` exactly on the empty list; otherwise, for
the first name of the fixed `BOOK_PRIORITY` order carried by some
bookmaker, it returns the LAST input bookmaker carrying that title
(input-order independent, last occurrence wins); when no priority name is
carried it returns the first bookmaker in input order. -/
theorem c5_choose_book_priority (bs : List Bookmaker) :
    (choose_book bs = none ↔ bs = []) ∧
    (∀ p1 p2 name, BOOK_PRIORITY = p1 ++ name :: p2 →
      (∀ n ∈ p1, ¬∃ b ∈ bs, b.title = some n) →
      (∃ b ∈ bs, b.title = some name) →
      ∃ pre suf b, choose_book bs = some b ∧ bs = pre ++ b :: suf ∧
        b.title = some name ∧ ∀ b' ∈ suf, b'.title ≠ some name) ∧
    ((∀ n ∈ BOOK_PRIORITY, ¬∃ b ∈ bs, b.title = some n) →
      ∀ b0 rest, bs = b0 :: rest → choose_book bs = some b0) := by
  refine ⟨?_, ?_, ?_⟩
  · cases bs with
    | nil => simp [choose_book]
    | cons b0 t =>
      rw [choose_book]
      cases h : BOOK_PRIORITY.findSome? (fun name => byTitle (b0 :: t) (some name)) <;>
        simp
  · intro p1 p2 name hdec h1 h3
    have hx : ∃ x ∈ bs, (fun b => b.title == some name) x = true := by
      obtain ⟨b, hb, ht⟩ := h3
      exact ⟨b, hb, by simp [ht]⟩
    obtain ⟨b, hbt⟩ := lastMatch_isSome_of_exists _ bs hx
    have hby : byTitle bs (some name) = some b := hbt
    obtain ⟨hpb, pre, suf, hdecomp, hsuf⟩ := lastMatch_eq_some _ bs b hbt
    have hfind : BOOK_PRIORITY.findSome? (fun n => byTitle bs (some n)) = some b := by
      rw [hdec]
      exact findSome?_of_head_misses _ p1 name p2 b
        (fun n hn => (byTitle_eq_none_iff bs n).mpr (h1 n hn)) hby
    refine ⟨pre, suf, b, ?_, hdecomp, by simpa using hpb, ?_⟩
    · cases hbs : bs with
      | nil =>
        obtain ⟨bb, hbb, _⟩ := h3
        rw [hbs] at hbb
        exact absurd hbb (by simp)
      | cons b0 t =>
        rw [choose_book, ← hbs, hfind]
    · intro b' hb' he
      have := hsuf b' hb'
      simp [he] at this
  · intro hall b0 rest hbs
    have hfind : BOOK_PRIORITY.findSome? (fun n => byTitle bs (some n)) = none :=
      findSome?_eq_none_of_all_miss _ _
        (fun n hn => (byTitle_eq_none_iff bs n).mpr (hall n hn))
    rw [hbs] at hfind ⊢
    rw [choose_book, hfind]

/-- C5 witness: the spec's own example — FanDuel listed before DraftKings
still selects the DraftKings entry, by priority rather than input order. -/
theorem c5_choose_book_priority_witness :
    ∃ pre suf b,
      choose_book [⟨some "FanDuel", []⟩, ⟨some "DraftKings", []⟩] = some b ∧
      ([⟨some "FanDuel", []⟩, ⟨some "DraftKings", []⟩] : List Bookmaker)
        = pre ++ b :: suf ∧
      b.title = some "DraftKings" ∧ ∀ b' ∈ suf, b'.title ≠ some "DraftKings" :=
  (c5_choose_book_priority _).2.1 [] ["FanDuel", "BetMGM", "Caesars", "PointsBet (US)", "bet365"]
    "DraftKings" rfl (by decide) (by decide)

/-- Whether a required market key is absent from the bookmaker's market
dict or present with an empty outcomes list. -/
def marketAbsentOrEmpty (book : Bookmaker) (k : String) : Bool :=
  match marketByKey book.markets k with
  | none => true
  | some m => m.outcomes.isEmpty

/-- The spread outcome the code resolves for the home side: from the
`spreads` market, the first outcome named after the home team or `Home`. -/
def spreadHomeOutcome (ev : Event) (book : Bookmaker) : Option Outcome :=
  (marketByKey book.markets "spreads").bind
    (fun sp => findSide sp.outcomes ev.home_team "Home")

/-- The spread outcome the code resolves for the away side. -/
def spreadAwayOutcome (ev : Event) (book : Bookmaker) : Option Outcome :=
  (marketByKey book.markets "spreads").bind
    (fun sp => findSide sp.outcomes ev.away_team "Away")

/-- A missing or outcome-less `h2h` market short-circuits the moneyline
section to the `return None` path. -/
theorem moneylineStage_of_absent (ev : Event) (book : Bookmaker)
    (h : marketAbsentOrEmpty book "h2h" = true) :
    moneylineStage ev book = .ok none := by
  unfold marketAbsentOrEmpty at h
  unfold moneylineStage
  split
  · rfl
  · rename_i ml hm
    rw [hm] at h
    have h2 : ml.outcomes.isEmpty = true := h
    simp [h2]

/-- A missing or outcome-less `spreads` market short-circuits the spread
section to the `return None` path. -/
theorem spreadStage_of_absent (ev : Event) (book : Bookmaker)
    (h : marketAbsentOrEmpty book "spreads" = true) :
    spreadStage ev book = .ok none := by
  unfold marketAbsentOrEmpty at h
  unfold spreadStage
  split
  · rfl
  · rename_i sp hm
    rw [hm] at h
    have h2 : sp.outcomes.isEmpty = true := h
    simp [h2]

/-- A missing or outcome-less `totals` market short-circuits the totals
section to the `return None` path. -/
theorem totalStage_of_absent (book : Bookmaker)
    (h : marketAbsentOrEmpty book "totals" = true) :
    totalStage book = .ok none := by
  unfold marketAbsentOrEmpty at h
  unfold totalStage
  split
  · rfl
  · rename_i tot hm
    rw [hm] at h
    have h2 : tot.outcomes.isEmpty = true := h
    simp [h2]

/-- A produced moneyline means the `h2h` market was present and had
outcomes. -/
theorem moneylineStage_some_imp (ev : Event) (book : Bookmaker) (ml : Moneyline)
    (h : moneylineStage ev book = .ok (some ml)) :
    marketAbsentOrEmpty book "h2h" = false := by
  cases hb : marketAbsentOrEmpty book "h2h" with
  | false => rfl
  | true => rw [moneylineStage_of_absent ev book hb] at h; exact absurd h (by simp)

/-- A produced spread means the `spreads` market was present and had
outcomes. -/
theorem spreadStage_some_imp (ev : Event) (book : Bookmaker) (sp : Spread)
    (h : spreadStage ev book = .ok (some sp)) :
    marketAbsentOrEmpty book "spreads" = false := by
  cases hb : marketAbsentOrEmpty book "spreads" with
  | false => rfl
  | true => rw [spreadStage_of_absent ev book hb] at h; exact absurd h (by simp)

/-- A produced total means the `totals` market was present and had
outcomes. -/
theorem totalStage_some_imp (book : Bookmaker) (tot : Total)
    (h : totalStage book = .ok (some tot)) :
    marketAbsentOrEmpty book "totals" = false := by
  cases hb : marketAbsentOrEmpty book "totals" with
  | false => rfl
  | true => rw [totalStage_of_absent book hb] at h; exact absurd h (by simp)

/-- Peeling a successful `map_event_to_game` run into its three market
stages and the final validated `Game` construction. -/
theorem map_event_stages (ev : Event) (book : Bookmaker) (g : Game)
    (hg : map_event_to_game ev book = .ok (some g)) :
    ∃ ml sp tot h a k,
      moneylineStage ev book = .ok (some ml) ∧
      spreadStage ev book = .ok (some sp) ∧
      totalStage book = .ok (some tot) ∧
      ev.home_team = some h ∧ ev.away_team = some a ∧ ev.commence_time = some k ∧
      g = ⟨1, k, h, a, ml, sp, tot⟩ := by
  unfold map_event_to_game at hg
  split at hg
  · exact absurd hg (by simp)
  · exact absurd hg (by simp)
  · rename_i ml hml
    split at hg
    · exact absurd hg (by simp)
    · exact absurd hg (by simp)
    · rename_i sp hsp
      split at hg
      · exact absurd hg (by simp)
      · exact absurd hg (by simp)
      · rename_i tot htot
        split at hg
        · rename_i h a k hh ha hk
          exact ⟨ml, sp, tot, h, a, k, hml, hsp, htot, hh, ha, hk,
            (Option.some.inj (Except.ok.inj hg)).symm⟩
        · exact absurd hg (by simp)

/-- Anatomy of a successfully produced spread: both sides resolved, both
points parsed, and the favored side is the one with the strictly smaller
signed point — the away side on an exact tie. -/
theorem spreadStage_spec (ev : Event) (book : Bookmaker) (sp : Spread)
    (h : spreadStage ev book = .ok (some sp)) :
    ∃ oh oa ph pa,
      spreadHomeOutcome ev book = some oh ∧ spreadAwayOutcome ev book = some oa ∧
      pyFloat oh.point = .ok ph ∧ pyFloat oa.point = .ok pa ∧
      (ph < pa →
        ev.home_team = some sp.favorite ∧ sp.line = |ph| ∧
          american_int oh.price = .ok sp.price) ∧
      (¬ph < pa →
        ev.away_team = some sp.favorite ∧ sp.line = |pa| ∧
          american_int oa.price = .ok sp.price) := by
  unfold spreadStage at h
  split at h
  · exact absurd h (by simp)
  · rename_i spm hm
    split at h
    · exact absurd h (by simp)
    · split at h
      · rename_i sh sa hfh hfa
        split at h
        · exact absurd h (by simp)
        · rename_i ph hph
          split at h
          · exact absurd h (by simp)
          · rename_i pa hpa
            have hoh : spreadHomeOutcome ev book = some sh := by
              unfold spreadHomeOutcome
              rw [hm]
              exact hfh
            have hoa : spreadAwayOutcome ev book = some sa := by
              unfold spreadAwayOutcome
              rw [hm]
              exact hfa
            split at h
            · rename_i hlt
              split at h
              · exact absurd h (by simp)
              · rename_i pr hpr
                split at h
                · rename_i f hf
                  obtain rfl : Spread.mk f |ph| pr = sp :=
                    Option.some.inj (Except.ok.inj h)
                  exact ⟨sh, sa, ph, pa, hoh, hoa, hph, hpa,
                    fun _ => ⟨hf, rfl, hpr⟩,
                    fun hc => absurd hlt hc⟩
                · exact absurd h (by simp)
            · rename_i hge
              split at h
              · exact absurd h (by simp)
              · rename_i pr hpr
                split at h
                · rename_i f hf
                  obtain rfl : Spread.mk f |pa| pr = sp :=
                    Option.some.inj (Except.ok.inj h)
                  exact ⟨sh, sa, ph, pa, hoh, hoa, hph, hpa,
                    fun hc => absurd hc hge,
                    fun _ => ⟨hf, rfl, hpr⟩⟩
                · exact absurd h (by simp)
      · exact absurd h (by simp)

/-- C1: whenever `map_event_to_game` produces a `Game`, both spread sides
resolved (exact team name or `Home`/`Away` label), both signed points
parsed, and the spread records as favorite the side with the strictly
smaller signed point — with its absolute point as line and its coerced
American odds as price — the away side winning exact ties. -/
theorem c1_spread_favorite (ev : Event) (book : Bookmaker) (g : Game)
    (hg : map_event_to_game ev book = .ok (some g)) :
    ∃ h a oh oa ph pa,
      ev.home_team = some h ∧ ev.away_team = some a ∧
      spreadHomeOutcome ev book = some oh ∧ spreadAwayOutcome ev book = some oa ∧
      pyFloat oh.point = .ok ph ∧ pyFloat oa.point = .ok pa ∧
      (ph < pa →
        g.spread.favorite = h ∧ g.spread.line = |ph| ∧
          american_int oh.price = .ok g.spread.price) ∧
      (¬ph < pa →
        g.spread.favorite = a ∧ g.spread.line = |pa| ∧
          american_int oa.price = .ok g.spread.price) := by
  obtain ⟨ml, sp, tot, h, a, k, hml, hsp, htot, hh, ha, hk, hgeq⟩ :=
    map_event_stages ev book g hg
  obtain ⟨oh, oa, ph, pa, hoh, hoa, hph, hpa, hlt, hge⟩ :=
    spreadStage_spec ev book sp hsp
  subst hgeq
  refine ⟨h, a, oh, oa, ph, pa, hh, ha, hoh, hoa, hph, hpa, ?_, ?_⟩
  · intro hcase
    obtain ⟨hfav, hline, hprice⟩ := hlt hcase
    exact ⟨(Option.some.inj (hh.symm.trans hfav)).symm, hline, hprice⟩
  · intro hcase
    obtain ⟨hfav, hline, hprice⟩ := hge hcase
    exact ⟨(Option.some.inj (ha.symm.trans hfav)).symm, hline, hprice⟩

/-- The spec's worked-example bookmaker: full h2h, spreads and totals. -/
def sampleBook : Bookmaker :=
  ⟨some "DraftKings",
    [⟨some "h2h", [⟨some "A", .vInt (-150), .vNone⟩, ⟨some "B", .vInt 130, .vNone⟩]⟩,
     ⟨some "spreads", [⟨some "A", .vInt (-110), .vFloat (mkRat (-7) 2)⟩,
                       ⟨some "B", .vInt (-110), .vFloat (mkRat 7 2)⟩]⟩,
     ⟨some "totals", [⟨some "Over", .vInt (-105), .vFloat (mkRat 97 2)⟩,
                      ⟨some "Under", .vInt (-115), .vFloat (mkRat 97 2)⟩]⟩]⟩

/-- The spec's worked-example event, kicking off Sunday 2026-10-18 UTC. -/
def sampleEvent : Event :=
  ⟨some "A", some "B", some "2026-10-18T17:00:00Z", [sampleBook]⟩

/-- The game the worked example normalizes to. -/
def sampleGame : Game :=
  ⟨1, "2026-10-18T17:00:00Z", "A", "B", ⟨-150, 130⟩, ⟨"A", mkRat 7 2, -110⟩,
    ⟨mkRat 97 2, -105, -115⟩⟩

/-- C1 witness: the favorite logic instantiated on the worked example. -/
theorem c1_spread_favorite_witness :
    ∃ h a oh oa ph pa,
      sampleEvent.home_team = some h ∧ sampleEvent.away_team = some a ∧
      spreadHomeOutcome sampleEvent sampleBook = some oh ∧
      spreadAwayOutcome sampleEvent sampleBook = some oa ∧
      pyFloat oh.point = .ok ph ∧ pyFloat oa.point = .ok pa ∧
      (ph < pa →
        sampleGame.spread.favorite = h ∧ sampleGame.spread.line = |ph| ∧
          american_int oh.price = .ok sampleGame.spread.price) ∧
      (¬ph < pa →
        sampleGame.spread.favorite = a ∧ sampleGame.spread.line = |pa| ∧
          american_int oa.price = .ok sampleGame.spread.price) :=
  c1_spread_favorite sampleEvent sampleBook sampleGame (by decide)

/-- C2 (amended): when any required market is absent or outcome-less the
run never yields a `Game` — it returns `None` unless a coercion or
validation failure in an earlier market section raises first — and a
produced `Game` certifies that all three markets were present with
outcomes (and is fully populated by construction). -/
theorem c2_required_markets (ev : Event) (book : Bookmaker) :
    ((marketAbsentOrEmpty book "h2h" || marketAbsentOrEmpty book "spreads"
        || marketAbsentOrEmpty book "totals") = true →
      map_event_to_game ev book = .ok none ∨
        ∃ e, map_event_to_game ev book = .error e) ∧
    (∀ g, map_event_to_game ev book = .ok (some g) →
      marketAbsentOrEmpty book "h2h" = false ∧
      marketAbsentOrEmpty book "spreads" = false ∧
      marketAbsentOrEmpty book "totals" = false) := by
  constructor
  · intro hcond
    have hcond3 : marketAbsentOrEmpty book "h2h" = true ∨
        marketAbsentOrEmpty book "spreads" = true ∨
        marketAbsentOrEmpty book "totals" = true := by
      simpa [Bool.or_eq_true, or_assoc] using hcond
    rcases hcond3 with hH | hS | hT
    · left
      unfold map_event_to_game
      rw [moneylineStage_of_absent ev book hH]
    · cases hml : moneylineStage ev book with
      | error e => right; exact ⟨e, by unfold map_event_to_game; rw [hml]⟩
      | ok o =>
        cases o with
        | none => left; unfold map_event_to_game; rw [hml]
        | some ml =>
          left
          unfold map_event_to_game
          rw [hml, spreadStage_of_absent ev book hS]
    · cases hml : moneylineStage ev book with
      | error e => right; exact ⟨e, by unfold map_event_to_game; rw [hml]⟩
      | ok o =>
        cases o with
        | none => left; unfold map_event_to_game; rw [hml]
        | some ml =>
          cases hsp : spreadStage ev book with
          | error e => right; exact ⟨e, by unfold map_event_to_game; rw [hml, hsp]⟩
          | ok o2 =>
            cases o2 with
            | none => left; unfold map_event_to_game; rw [hml, hsp]
            | some sp =>
              left
              unfold map_event_to_game
              rw [hml, hsp, totalStage_of_absent book hT]
  · intro g hg
    obtain ⟨ml, sp, tot, h, a, k, hml, hsp, htot, _, _, _, _⟩ :=
      map_event_stages ev book g hg
    exact ⟨moneylineStage_some_imp ev book ml hml,
           spreadStage_some_imp ev book sp hsp,
           totalStage_some_imp book tot htot⟩

/-- A bookmaker whose h2h home price is the uncoercible string `"N/A"` and
which lacks the `spreads` and `totals` markets entirely. -/
def glitchBook : Bookmaker :=
  ⟨some "FanDuel",
    [⟨some "h2h", [⟨some "A", .vStr "N/A", .vNone⟩, ⟨some "B", .vInt 130, .vNone⟩]⟩]⟩

/-- Event carrying only `glitchBook`. -/
def glitchEvent : Event :=
  ⟨some "A", some "B", some "2026-10-18T13:00:00Z", [glitchBook]⟩

/-- C2 counterexample: with `spreads` (and `totals`) absent the claim says
`map_event_to_game` returns `None`, but the price coercion in the earlier
h2h section raises `ValueError` instead, so the literal claim fails. -/
theorem c2_counterexample_raise :
    (marketAbsentOrEmpty glitchBook "h2h" || marketAbsentOrEmpty glitchBook "spreads"
      || marketAbsentOrEmpty glitchBook "totals") = true ∧
    map_event_to_game glitchEvent glitchBook = .error .valueError := by
  decide

/-- A complete bookmaker except for the `totals` market. -/
def noTotalsBook : Bookmaker :=
  ⟨some "DraftKings",
    [⟨some "h2h", [⟨some "A", .vInt (-150), .vNone⟩, ⟨some "B", .vInt 130, .vNone⟩]⟩,
     ⟨some "spreads", [⟨some "A", .vInt (-110), .vFloat (mkRat (-7) 2)⟩,
                       ⟨some "B", .vInt (-110), .vFloat (mkRat 7 2)⟩]⟩]⟩

/-- Event carrying only `noTotalsBook`. -/
def noTotalsEvent : Event :=
  ⟨some "A", some "B", some "2026-10-18T17:00:00Z", [noTotalsBook]⟩

/-- C2 witness: a missing `totals` market on an otherwise clean event. -/
theorem c2_required_markets_witness :
    map_event_to_game noTotalsEvent noTotalsBook = .ok none ∨
      ∃ e, map_event_to_game noTotalsEvent noTotalsBook = .error e :=
  (c2_required_markets noTotalsEvent noTotalsBook).1 (by decide)

/-- A bookmaker with all three markets present whose h2h home price is the
uncoercible string `"N/A"`. -/
def badPriceBook : Bookmaker :=
  ⟨some "FanDuel",
    [⟨some "h2h", [⟨some "A", .vStr "N/A", .vNone⟩, ⟨some "B", .vInt 130, .vNone⟩]⟩,
     ⟨some "spreads", [⟨some "A", .vInt (-110), .vFloat (mkRat (-7) 2)⟩,
                       ⟨some "B", .vInt (-110), .vFloat (mkRat 7 2)⟩]⟩,
     ⟨some "totals", [⟨some "Over", .vInt (-105), .vFloat (mkRat 97 2)⟩,
                      ⟨some "Under", .vInt (-115), .vFloat (mkRat 97 2)⟩]⟩]⟩

/-- Event carrying only `badPriceBook`, kicking off inside the 2026-10-15
weekend window. -/
def badPriceEvent : Event :=
  ⟨some "A", some "B", some "2026-10-18T13:00:00Z", [badPriceBook]⟩

/-- C6: the shared to-integer-odds coercion has no working fallback — on
`"N/A"` both `int(float(x))` and the recovery `int(x)` raise — and the
resulting `ValueError` escapes `map_event_to_game` and the `/nfl/weekend`
per-event loop, aborting the whole batch even though the following event
normalizes fine on its own. -/
theorem c6_bad_price_aborts_batch :
    american_int (JVal.vStr "N/A") = .error .valueError ∧
    map_event_to_game badPriceEvent badPriceBook = .error .valueError ∧
    map_event_to_game sampleEvent sampleBook = .ok (some sampleGame) ∧
    nfl_weekend_games [badPriceEvent, sampleEvent]
        (football_week_window 1791979200).1 (football_week_window 1791979200).2
      = .error .valueError := by
  decide

/-- The per-event loop yields at most one game per input event. -/
theorem runEvents_length_le (evs : List Event) (f : Event → Except PyErr Bool)
    (l : List Game) (h : runEvents evs f = .ok l) : l.length ≤ evs.length := by
  induction evs generalizing l with
  | nil =>
    rw [runEvents] at h
    obtain rfl : ([] : List Game) = l := Except.ok.inj h
    simp
  | cons ev rest ih =>
    rw [runEvents] at h
    split at h
    · exact absurd h (by simp)
    · split at h
      · split at h
        · exact Nat.le_succ_of_le (ih _ h)
        · split at h
          · exact absurd h (by simp)
          · exact Nat.le_succ_of_le (ih _ h)
          · split at h
            · exact absurd h (by simp)
            · rename_i gs hrest
              obtain rfl := Except.ok.inj h
              simpa using ih _ hrest
      · exact Nat.le_succ_of_le (ih _ h)

/-- When every event fails the filter, the loop returns no games and no
error. -/
theorem runEvents_all_false (evs : List Event) (f : Event → Except PyErr Bool)
    (h : ∀ ev ∈ evs, f ev = .ok false) : runEvents evs f = .ok [] := by
  induction evs with
  | nil => rfl
  | cons ev rest ih =>
    have hr := ih (fun e he => h e (by simp [he]))
    rw [runEvents, h ev (by simp)]
    simpa using hr

/-- C8: the `/nfl/today` pipeline never raises on an empty upstream list,
and when no event matches today's date it falls back to running bookmaker
selection and normalization over the first two events in
commence-time-sorted order — hence at most 2 games; the sort is a
permutation of the raw events ordered by their commence strings. -/
theorem c8_today_fallback (raw : List Event) (today : PyDate) :
    nfl_today_games [] today = .ok [] ∧
    (sortByCommence raw).Perm raw ∧
    List.Pairwise
      (fun x y => x.commence_time.getD "" ≤ y.commence_time.getD "")
      (sortByCommence raw) ∧
    ((∀ ev ∈ raw, today_filter (ev.commence_time.getD "") today = false) →
      nfl_today_games raw today
          = runEvents ((sortByCommence raw).take 2) (fun _ => .ok true) ∧
      ∀ l, nfl_today_games raw today = .ok l → l.length ≤ 2) := by
  refine ⟨by simp [nfl_today_games, sortByCommence, runEvents],
    List.mergeSort_perm raw _, ?_, ?_⟩
  · have hs := @List.sorted_mergeSort Event
      (fun x y : Event => decide (x.commence_time.getD "" ≤ y.commence_time.getD ""))
      (fun a b c hab hbc => by
        simp only [decide_eq_true_iff] at hab hbc ⊢
        exact le_trans hab hbc)
      (fun a b => by
        simp only [Bool.or_eq_true, decide_eq_true_iff]
        exact le_total _ _)
      raw
    exact hs.imp (fun hab => by simpa using hab)
  · intro hnone
    have hfirst :
        runEvents raw
          (fun ev => .ok (today_filter (ev.commence_time.getD "") today)) = .ok [] :=
      runEvents_all_false _ _ (fun ev hev => by rw [hnone ev hev])
    have heq : nfl_today_games raw today
        = runEvents ((sortByCommence raw).take 2) (fun _ => .ok true) := by
      unfold nfl_today_games
      rw [hfirst]
      rfl
    refine ⟨heq, fun l hl => ?_⟩
    rw [heq] at hl
    have hle := runEvents_length_le _ _ _ hl
    have : ((sortByCommence raw).take 2).length ≤ 2 := by
      simp [List.length_take]
    omega

/-- C8 witness: a single raw event that does not kick off on the reference
date still comes back through the 2-event fallback path. -/
theorem c8_today_fallback_witness :
    nfl_today_games [sampleEvent] ⟨2026, 10, 12⟩
        = runEvents ((sortByCommence [sampleEvent]).take 2) (fun _ => .ok true) ∧
    ∀ l, nfl_today_games [sampleEvent] ⟨2026, 10, 12⟩ = .ok l → l.length ≤ 2 :=
  (c8_today_fallback [sampleEvent] ⟨2026, 10, 12⟩).2.2.2 (by decide)

end Betslip
